import Mathlib

/-!
Verification of the Storm-API core against its design specification.

The development shallowly embeds the Python sources:
  * `src/core/storm_service.py` — the in-memory artifact store
    (`_IN_MEMORY_STORAGE`, `_normalize_path`, `_write_in_memory`,
    `_read_in_memory`, `_exists_in_memory`, `_list_files_in_memory`,
    `clear_memory_storage`), article resolution
    (`StormService._get_article_from_memory`), and the error-classifying
    wrappers `StormService.run` / `StormService.run_with_streaming`;
  * `src/api/models.py` — `StormRequest` topic validation;
  * `src/utils/middleware.py` — the correlation-id context.

Python `dict` is modelled as an insertion-ordered association list with
in-place update, matching CPython's guaranteed iteration order.  Python
`str` operations used by the sources (`replace` with a one-character
pattern, `startswith`, `endswith`, the substring test `in`, `strip`,
`lower`, `len`) are modelled character-wise on `List Char`; `strip` and
`lower` are modelled over ASCII, which covers every string the sources
compare against.
-/

/-- Character-list test: `pat` is a leading segment of `s`
(Python `s.startswith(pat)` on the tails considered). -/
def strListStarts : List Char → List Char → Bool
  | [], _ => true
  | _ :: _, [] => false
  | p :: ps, c :: cs => p == c && strListStarts ps cs

/-- Character-list substring test (Python `pat in s`). -/
def strListHasSub (pat : List Char) : List Char → Bool
  | [] => pat.isEmpty
  | c :: cs => strListStarts pat (c :: cs) || strListHasSub pat cs

/-- Python `s.startswith(pat)`. -/
def strStarts (pat s : String) : Bool := strListStarts pat.data s.data

/-- Python `s.endswith(pat)`. -/
def strEnds (pat s : String) : Bool := strListStarts pat.data.reverse s.data.reverse

/-- Python substring membership `pat in s`. -/
def containsSub (s pat : String) : Bool := strListHasSub pat.data s.data

/-- The in-memory storage `_IN_MEMORY_STORAGE : Dict[str, str]`, modelled as
an insertion-ordered association list (CPython dict iteration order). -/
abbrev Store := List (String × String)

/-- The key sequence of the store, in insertion order
(Python `dict.keys()`). -/
def storeKeys (store : Store) : List String := store.map Prod.fst

/-- Python `dict[k] = v`: update in place when the key is present
(keeping its position), otherwise append at the end. -/
def dictSet : Store → String → String → Store
  | [], k, v => [(k, v)]
  | kv :: rest, k, v =>
      if kv.fst = k then (kv.fst, v) :: rest else kv :: dictSet rest k v

/-- Python `dict.get(k)`: the value at the first (unique) matching key. -/
def dictGet : Store → String → Option String
  | [], _ => none
  | kv :: rest, k => if kv.fst = k then some kv.snd else dictGet rest k

/-- Model of `_normalize_path`: `file_path.replace("\\", "/")`.  The pattern is a
single character, so the replacement is a character-wise map. -/
def normalize_path (file_path : String) : String :=
  String.mk (file_path.data.map (fun c => if c = '\\' then '/' else c))

/-- Model of `_write_in_memory(s, file_path)`: store `s` under the normalized path. -/
def write_in_memory (store : Store) (s : String) (file_path : String) : Store :=
  dictSet store (normalize_path file_path) s

/-- Model of `_read_in_memory(file_path)`: `_IN_MEMORY_STORAGE.get(key, "")`. -/
def read_in_memory (store : Store) (file_path : String) : String :=
  (dictGet store (normalize_path file_path)).getD ""

/-- Model of `_exists_in_memory(file_path)`: `key in _IN_MEMORY_STORAGE`. -/
def exists_in_memory (store : Store) (file_path : String) : Bool :=
  (dictGet store (normalize_path file_path)).isSome

/-- Model of `_list_files_in_memory(directory)`: keys starting with the normalized
directory, which is coerced to end with `"/"` when non-empty. -/
def list_files_in_memory (store : Store) (directory : String) : List String :=
  let pfx0 := normalize_path directory
  let pfx := if ¬ strEnds "/" pfx0 ∧ pfx0 ≠ "" then pfx0 ++ "/" else pfx0
  (storeKeys store).filter (fun key => strStarts pfx key)

/-- Model of `clear_memory_storage()`: `_IN_MEMORY_STORAGE.clear()` — empties the one
global store, with no notion of a run scope. -/
def clear_memory_storage (_store : Store) : Store := []

/-- Pipeline stage toggles (`StormService._get_pipeline_config`). -/
structure PipelineConfig where
  do_research : Bool
  do_generate_outline : Bool
  do_generate_article : Bool
  do_polish_article : Bool

/-- A Python exception, reduced to what the service inspects:
`type(e).__name__` and `str(e)`. -/
structure PyError where
  typeName : String
  message : String
deriving DecidableEq

/-- The service's rate-limit test:
`"RatelimitException" in type(e).__name__`. -/
def isRateLimit (e : PyError) : Bool := containsSub e.typeName "RatelimitException"

/-- Model of `StormService._format_error(error_type, message)`: wraps the message in a
plain `Exception`; `tb` stands for the `traceback.format_exc()` text. -/
def format_error (tb error_type message : String) : PyError :=
  { typeName := "Exception"
    message := "STORM " ++ error_type ++ ": " ++ message ++ "\nTraceback: " ++ tb }

/-- Model of `StormService._get_article_from_memory(config)`: list every stored path,
prefer the first path containing `"polished_article.txt"` when polishing is
enabled, fall back to the first path containing `"storm_gen_article.txt"`,
and raise when neither exists.  The indexing `_IN_MEMORY_STORAGE[f]` cannot
fail because `f` is drawn from the store's own key list, so it is modelled by
`dictGet` with a default. -/
def get_article_from_memory (config : PipelineConfig) (store : Store) :
    Except String String :=
  let all_files := list_files_in_memory store ""
  if all_files.isEmpty then
    Except.error "No files were generated in memory storage"
  else if config.do_polish_article ∧
      ¬ (all_files.filter (fun f => containsSub f "polished_article.txt")).isEmpty then
    Except.ok ((dictGet store
      ((all_files.filter (fun f => containsSub f "polished_article.txt")).headD "")).getD "")
  else if ¬ (all_files.filter (fun f => containsSub f "storm_gen_article.txt")).isEmpty then
    Except.ok ((dictGet store
      ((all_files.filter (fun f => containsSub f "storm_gen_article.txt")).headD "")).getD "")
  else
    Except.error ("No article file found in memory. Available files: " ++
      String.intercalate ", " all_files)

namespace StormService

/-- Model of `StormService.run(topic)`, after `clear_memory_storage()`:
`worker` is the outcome of `runner.run` — the store it produced on success,
or the exception it raised.  On success the article is resolved from memory;
a resolution failure raises a plain `Exception` inside the `try`, which the
`except Exception` arm wraps generically.  An `AssertionError` is wrapped as
an assertion error; an exception whose type name contains
`"RatelimitException"` is replaced by the distinct rate-limit `Exception`;
anything else is wrapped as a generic pipeline failure. -/
def run (config : PipelineConfig) (worker : Except PyError Store) (tb : String) :
    Except PyError String :=
  match worker with
  | Except.ok store =>
      match get_article_from_memory config store with
      | Except.ok article => Except.ok article
      | Except.error msg => Except.error (format_error tb "Pipeline execution failed" msg)
  | Except.error e =>
      if e.typeName = "AssertionError" then
        Except.error (format_error tb "Assertion error" e.message)
      else if isRateLimit e then
        Except.error { typeName := "Exception"
                       message := "Search rate limit exceeded. Try again in a few moments." }
      else
        Except.error (format_error tb "Pipeline execution failed" e.message)

/-- The per-stage completion lines yielded on the success path of
`run_with_streaming`. -/
def stage_lines (config : PipelineConfig) : List String :=
  (if config.do_research then ["✅ Research phase complete\n\n"] else []) ++
  (if config.do_generate_outline then ["📝 Outline generated\n\n"] else []) ++
  (if config.do_generate_article then ["✍️  Article generated\n\n"] else []) ++
  (if config.do_polish_article then ["✨ Article polished\n\n"] else [])

/-- The chunks of a successful stream that precede the final article:
the start line, each forwarded progress message with a trailing newline,
a blank line, the stage-completion lines, and the article header. -/
def stream_progress_part (topic : String) (config : PipelineConfig)
    (messages : List String) : List String :=
  ("🔍 Starting research on: " ++ topic ++ "\n\n") ::
    messages.map (fun m => m ++ "\n") ++
    ["\n"] ++ stage_lines config ++
    ["📄 Final Article:\n", "────────────────────────────────────────\n\n"]

/-- Model of `StormService.run_with_streaming(topic)`.  The worker thread stores
either the resolved article or the exception it raised in
`result_container`; the consumer loop forwards every queued progress message
in FIFO order before the terminal step (the queue is single-consumer and the
final sweep drains it after the worker ends).  Returns the yielded chunks
and the exception the generator finally raises, if any.

On a worker error the generator yields an error line and raises inside its
own `try`, so the `except Exception` arm catches that raise again: the
rate-limit case therefore yields the distinct rate-limit line *and* a
generic pipeline-failure line, and the exception that escapes is the
generically wrapped one; the generic case is wrapped twice. -/
def run_with_streaming (topic : String) (config : PipelineConfig)
    (messages : List String) (worker : Except PyError String) (tb : String) :
    List String × Option PyError :=
  let pre := ("🔍 Starting research on: " ++ topic ++ "\n\n") ::
    messages.map (fun m => m ++ "\n")
  match worker with
  | Except.ok article =>
      (pre ++ ["\n"] ++ stage_lines config ++
        ["📄 Final Article:\n", "────────────────────────────────────────\n\n", article],
       none)
  | Except.error e =>
      if isRateLimit e then
        let rlMsg := "Search rate limit exceeded. Try again in a few moments."
        (pre ++ ["❌ Search rate limit exceeded. Try again in a few moments.\n",
                 "❌ Pipeline execution failed: " ++ rlMsg ++ "\n"],
         some (format_error tb "Pipeline execution failed" rlMsg))
      else
        let first := format_error tb "Pipeline execution failed" e.message
        (pre ++ ["❌ Pipeline execution failed: " ++ e.message ++ "\n",
                 "❌ Pipeline execution failed: " ++ first.message ++ "\n"],
         some (format_error tb "Pipeline execution failed" first.message))

end StormService

/-- The value bound to `request_id_context` in one execution context;
`none` models an unset `ContextVar` (its declared default is `""`). -/
abbrev Ctx := Option String

/-- Model of `ContextVar.get(default)`. -/
def contextvar_get (ctx : Ctx) (fallback : String) : String := ctx.getD fallback

/-- Model of `get_request_id()`: `request_id_context.get("")`. -/
def get_request_id (ctx : Ctx) : String := contextvar_get ctx ""

/-- A thread started with `threading.Thread` begins with a fresh, empty
context: CPython does not copy context variables into plain threads, so the
pipeline worker thread in `run_with_streaming` reads the variable's default. -/
def thread_initial_ctx : Ctx := none

/-- Model of `run_in_threadpool` (anyio `to_thread.run_sync`): it runs the delegated call
in a copy of the caller's context, so bindings are inherited there. -/
def threadpool_delegated_ctx (ctx : Ctx) : Ctx := ctx

/-- The correlation-id values observable around one
`RequestIDMiddleware.dispatch` call. -/
structure DispatchObs where
  duringRequest : String
  duringThreadpoolDelegation : String
  duringPipelineWorkerThread : String
  afterDispatch : String
deriving DecidableEq

/-- Model of `RequestIDMiddleware.dispatch`: bind a fresh id with
`request_id_context.set` (whose token records the prior state), observe
`get_request_id()` inside the request, inside a threadpool-delegated call,
and inside a plain worker thread spawned during the request, then restore
the token in the `finally` block — `body_raises` does not affect the
restored state because the reset is unconditional. -/
def dispatch (ctx0 : Ctx) (request_id : String) (_body_raises : Bool) : DispatchObs :=
  let token : Ctx := ctx0
  let ctx1 : Ctx := some request_id
  { duringRequest := get_request_id ctx1
    duringThreadpoolDelegation := get_request_id (threadpool_delegated_ctx ctx1)
    duringPipelineWorkerThread := get_request_id thread_initial_ctx
    afterDispatch := get_request_id token }

/-- Python ASCII whitespace (`str.strip`, modelled over ASCII). -/
def isPySpace (c : Char) : Bool :=
  c = ' ' ∨ c = '\t' ∨ c = '\n' ∨ c = '\r' ∨ c = '\x0b' ∨ c = '\x0c'

/-- Python `str.strip()` (ASCII whitespace model). -/
def pyStrip (s : String) : String :=
  String.mk (((s.data.dropWhile isPySpace).reverse.dropWhile isPySpace).reverse)

/-- Python `str.lower()` (ASCII model; every pattern the validator compares
against is ASCII). -/
def pyLower (s : String) : String :=
  String.mk (s.data.map (fun c => if 'A' ≤ c ∧ c ≤ 'Z' then Char.ofNat (c.toNat + 32) else c))

/-- The forbidden substrings of `StormRequest.validate_topic`. -/
def forbidden_patterns : List String :=
  ["<script>", "javascript:", "http://", "https://"]

/-- Model of `StormRequest.validate_topic`: strip the topic, reject the empty result,
then reject on the first forbidden pattern contained (case-insensitively) in
the stripped topic. -/
def validate_topic (v : String) : Except String String :=
  let v := pyStrip v
  if v = "" then Except.error "Topic cannot be empty or whitespace"
  else
    match forbidden_patterns.find? (fun pat => containsSub (pyLower v) (pyLower pat)) with
    | some pat => Except.error ("Topic contains forbidden pattern: " ++ pat)
    | none => Except.ok v

/-- Acceptance of a `StormRequest` topic: pydantic applies the
`Field(min_length=3, max_length=200)` constraints to the raw string before
running the (mode `after`) validator. -/
def storm_request_accepts (topic : String) : Bool :=
  decide (3 ≤ topic.length) && decide (topic.length ≤ 200) &&
    (validate_topic topic).isOk

/-- The claim's directory coercion, stated from the spec's words: a
non-empty directory is coerced to end with the separator, the empty
directory is left alone. -/
def coerced_dir (q : String) : String :=
  if q ≠ "" ∧ ¬ strEnds "/" q then q ++ "/" else q

/-- The normalizing character map is idempotent. -/
theorem normChar_idem (c : Char) :
    (if (if c = '\\' then '/' else c) = '\\' then '/' else if c = '\\' then '/' else c) =
      (if c = '\\' then '/' else c) := by
  by_cases h : c = '\\' <;> simp [h]

/-- The path normalization `_normalize_path` is idempotent. -/
theorem normalize_path_idem (p : String) :
    normalize_path (normalize_path p) = normalize_path p := by
  unfold normalize_path
  apply congrArg String.mk
  show List.map _ (List.map _ p.data) = _
  rw [List.map_map]
  exact List.map_congr_left (fun c _ => normChar_idem c)

/-- Looking a key up after a `dict` update. -/
theorem dictGet_dictSet (store : Store) (k v q : String) :
    dictGet (dictSet store k v) q = if q = k then some v else dictGet store q := by
  induction store with
  | nil =>
      by_cases h : q = k
      · simp [dictSet, dictGet, h]
      · simp only [dictSet, dictGet, if_neg h]
        rw [if_neg (fun h2 => h h2.symm)]
  | cons kv rest ih =>
      by_cases h1 : kv.fst = k
      · by_cases h2 : q = k
        · subst h2
          simp [dictSet, dictGet, h1]
        · simp only [dictSet, if_pos h1, dictGet, if_neg h2]
          rw [if_neg (fun h3 => h2 (h3.symm.trans h1)),
            if_neg (fun h3 => h2 (h3.symm.trans h1))]
      · by_cases h2 : kv.fst = q
        · simp only [dictSet, if_neg h1, dictGet, if_pos h2, ih]
          rw [if_neg (fun h3 => h1 (h2.trans h3))]
        · simp only [dictSet, if_neg h1, dictGet, if_neg h2, ih]

/-- A key has a value exactly when it occurs in the key sequence. -/
theorem dictGet_isSome_iff_mem (store : Store) (k : String) :
    (dictGet store k).isSome = true ↔ k ∈ storeKeys store := by
  induction store with
  | nil => simp [dictGet, storeKeys]
  | cons kv rest ih =>
      by_cases h : kv.fst = k
      · simp [dictGet, storeKeys, h]
      · have h2 : ¬ (k = kv.fst) := fun h3 => h h3.symm
        simp [dictGet, storeKeys, h, h2, ih, List.mem_cons]

/-- The empty pattern is a leading segment of everything
(Python `s.startswith("")`). -/
theorem strStarts_empty (s : String) : strStarts "" s = true := rfl

/-- Listing with the empty directory returns every stored key. -/
theorem list_files_empty_dir (store : Store) :
    list_files_in_memory store "" = storeKeys store := by
  have h1 : list_files_in_memory store "" =
      (storeKeys store).filter (fun key => strStarts "" key) := rfl
  rw [h1]
  exact List.filter_eq_self.mpr (fun a _ => strStarts_empty a)


/-- C7: writing under a backslash-separated path and reading the
forward-slash form returns the written content, and reading a normalized
path reads the same entry as the raw path, so normalization is idempotent
with respect to store lookup. -/
theorem normalization_idempotent (store : Store) (x : String) (p : String) :
    read_in_memory (write_in_memory store x "a\\b/c") "a/b/c" = x ∧
    read_in_memory store (normalize_path p) = read_in_memory store p := by
  constructor
  · unfold read_in_memory write_in_memory
    rw [dictGet_dictSet,
      if_pos (show normalize_path "a/b/c" = normalize_path "a\\b/c" by decide)]
    rfl
  · unfold read_in_memory
    rw [normalize_path_idem]

/-- Witness for C7 at a concrete store and path. -/
theorem normalization_idempotent_witness :
    read_in_memory (write_in_memory [] "X" "a\\b/c") "a/b/c" = "X" ∧
    read_in_memory [("q/r", "1")] (normalize_path "q\\r") =
      read_in_memory [("q/r", "1")] "q\\r" :=
  ⟨(normalization_idempotent [] "X" "q\\r").1,
   (normalization_idempotent [("q/r", "1")] "X" "q\\r").2⟩

/-- C8: `read` returns the stored content when the normalized path is
present and the empty string when it is absent (it never fails), and a
`write` replaces any prior value at the normalized path silently, with path
equality determined only after normalization. -/
theorem read_write_contract (store : Store) (p q c : String) :
    ((normalize_path p ∈ storeKeys store →
        ∃ v, dictGet store (normalize_path p) = some v ∧ read_in_memory store p = v) ∧
      (normalize_path p ∉ storeKeys store → read_in_memory store p = "")) ∧
    read_in_memory (write_in_memory store c p) q =
      (if normalize_path q = normalize_path p then c else read_in_memory store q) := by
  refine ⟨⟨?_, ?_⟩, ?_⟩
  · intro hmem
    obtain ⟨v, hv⟩ := Option.isSome_iff_exists.mp
      ((dictGet_isSome_iff_mem store (normalize_path p)).mpr hmem)
    refine ⟨v, hv, ?_⟩
    unfold read_in_memory
    rw [hv]
    rfl
  · intro hmem
    have h : dictGet store (normalize_path p) = none := by
      cases hd : dictGet store (normalize_path p) with
      | none => rfl
      | some v =>
          exact absurd ((dictGet_isSome_iff_mem store _).mp (by rw [hd]; rfl)) hmem
    unfold read_in_memory
    rw [h]
    rfl
  · unfold read_in_memory write_in_memory
    rw [dictGet_dictSet]
    by_cases h : normalize_path q = normalize_path p
    · rw [if_pos h, if_pos h]
      rfl
    · rw [if_neg h, if_neg h]

/-- Witness for C8 at a concrete store: a present path, an absent path, and
an overwrite observed through `read`. -/
theorem read_write_contract_witness :
    (∃ v, dictGet [("a/b", "v0")] (normalize_path "a/b") = some v ∧
        read_in_memory [("a/b", "v0")] "a/b" = v) ∧
    read_in_memory ([] : Store) "missing" = "" ∧
    read_in_memory (write_in_memory [("a/b", "v0")] "w" "a\\b") "a/b" = "w" :=
  ⟨(read_write_contract [("a/b", "v0")] "a/b" "q" "w").1.1 (by decide),
   (read_write_contract [] "missing" "q" "w").1.2 (by decide),
   by
     rw [(read_write_contract [("a/b", "v0")] "a\\b" "a/b" "w").2,
       if_pos (by decide)]⟩

/-- C1: the claimed isolation invariant fails on the code.  The store API
has no run identity at all: `_IN_MEMORY_STORAGE` is one process-wide dict,
so a path written during run A's execution is returned by the `list` and
`read` that run B's execution performs on the same global store, and the
global `clear_memory_storage()` invoked for run A deletes run B's entry.
Evaluated at two runs' article paths. -/
theorem global_store_breaks_isolation :
    ("runA/storm_gen_article.txt" ∈ list_files_in_memory
        (write_in_memory (write_in_memory [] "B article" "runB/storm_gen_article.txt")
          "A article" "runA/storm_gen_article.txt") "") ∧
    read_in_memory
        (write_in_memory (write_in_memory [] "B article" "runB/storm_gen_article.txt")
          "A article" "runA/storm_gen_article.txt") "runA/storm_gen_article.txt" =
      "A article" ∧
    clear_memory_storage
        (write_in_memory (write_in_memory [] "B article" "runB/storm_gen_article.txt")
          "A article" "runA/storm_gen_article.txt") = [] ∧
    exists_in_memory (clear_memory_storage
        (write_in_memory (write_in_memory [] "B article" "runB/storm_gen_article.txt")
          "A article" "runA/storm_gen_article.txt")) "runB/storm_gen_article.txt" = false := by
  decide

/-- The listing is the key sequence filtered by the coerced, normalized
directory. -/
theorem list_files_eq_filter (store : Store) (d : String) :
    list_files_in_memory store d =
      (storeKeys store).filter
        (fun key => strStarts (coerced_dir (normalize_path d)) key) := by
  show (storeKeys store).filter
      (fun key => strStarts
        (if ¬ strEnds "/" (normalize_path d) ∧ normalize_path d ≠ "" then
          normalize_path d ++ "/" else normalize_path d) key) = _
  unfold coerced_dir
  by_cases h1 : strEnds "/" (normalize_path d) = true <;>
    by_cases h2 : normalize_path d = "" <;> simp [h1, h2]

/-- C9: a path is listed under a directory exactly when it is a stored path
whose normalized form starts with the normalized directory, the non-empty
directory being coerced to end with a separator; the empty directory lists
every stored path.  The hypothesis records that stored keys are already in
normalized form, which every write guarantees. -/
theorem list_prefix_characterization (store : Store) (d p : String)
    (h : ∀ k ∈ storeKeys store, normalize_path k = k) :
    (p ∈ list_files_in_memory store d ↔
      p ∈ storeKeys store ∧
        strStarts (coerced_dir (normalize_path d)) (normalize_path p) = true) ∧
    (normalize_path d = "" → (p ∈ list_files_in_memory store d ↔ p ∈ storeKeys store)) := by
  constructor
  · rw [list_files_eq_filter, List.mem_filter]
    constructor
    · rintro ⟨hp, hs⟩
      refine ⟨hp, ?_⟩
      rw [h p hp]
      exact hs
    · rintro ⟨hp, hs⟩
      refine ⟨hp, ?_⟩
      rw [h p hp] at hs
      exact hs
  · intro hd
    rw [list_files_eq_filter, hd]
    have hc : coerced_dir "" = "" := by decide
    rw [hc]
    simp [List.mem_filter, strStarts_empty]

/-- Witness for C9 at a concrete two-run store: the directory filter keeps
exactly the matching path, and the empty directory lists everything. -/
theorem list_prefix_characterization_witness :
    ("runA/x.txt" ∈ list_files_in_memory [("runA/x.txt", "1"), ("runB/y.txt", "2")] "runA" ↔
      "runA/x.txt" ∈ storeKeys [("runA/x.txt", "1"), ("runB/y.txt", "2")] ∧
        strStarts (coerced_dir (normalize_path "runA")) (normalize_path "runA/x.txt") = true) ∧
    (normalize_path "" = "" →
      ("runA/x.txt" ∈ list_files_in_memory [("runA/x.txt", "1"), ("runB/y.txt", "2")] "" ↔
        "runA/x.txt" ∈ storeKeys [("runA/x.txt", "1"), ("runB/y.txt", "2")])) :=
  ⟨(list_prefix_characterization [("runA/x.txt", "1"), ("runB/y.txt", "2")] "runA"
      "runA/x.txt" (by decide)).1,
   (list_prefix_characterization [("runA/x.txt", "1"), ("runB/y.txt", "2")] ""
      "runA/x.txt" (by decide)).2⟩

/-- C2: with exactly one stored path carrying the polished marker and
exactly one carrying the draft marker, `generate`'s resolution returns the
polished content when the polish stage is enabled and the draft content when
it is disabled. -/
theorem resolution_preference (config : PipelineConfig) (store : Store)
    (pf pc df dc : String)
    (hpf : (storeKeys store).filter (fun f => containsSub f "polished_article.txt") = [pf])
    (hpc : dictGet store pf = some pc)
    (hdf : (storeKeys store).filter (fun f => containsSub f "storm_gen_article.txt") = [df])
    (hdc : dictGet store df = some dc) :
    (config.do_polish_article = true →
      get_article_from_memory config store = Except.ok pc) ∧
    (config.do_polish_article = false →
      get_article_from_memory config store = Except.ok dc) := by
  have hall : list_files_in_memory store "" = storeKeys store := list_files_empty_dir store
  have hne : (storeKeys store).isEmpty = false := by
    cases hk : storeKeys store with
    | nil => rw [hk] at hpf; simp at hpf
    | cons a l => rfl
  constructor
  · intro hpol
    simp only [get_article_from_memory, hall, hne, hpf, hpol]
    simp [hpc]
  · intro hpol
    simp only [get_article_from_memory, hall, hne, hpf, hdf, hpol]
    simp [hdc]

/-- Witness for C2 at a concrete store holding one polished and one draft
article for one topic, with polishing enabled and disabled. -/
theorem resolution_preference_witness :
    get_article_from_memory ⟨true, true, true, true⟩
      [("T/storm_gen_article.txt", "D"), ("T/polished_article.txt", "P")] = Except.ok "P" ∧
    get_article_from_memory ⟨true, true, true, false⟩
      [("T/storm_gen_article.txt", "D"), ("T/polished_article.txt", "P")] = Except.ok "D" :=
  ⟨(resolution_preference ⟨true, true, true, true⟩
      [("T/storm_gen_article.txt", "D"), ("T/polished_article.txt", "P")]
      "T/polished_article.txt" "P" "T/storm_gen_article.txt" "D"
      (by decide) (by decide) (by decide) (by decide)).1 rfl,
   (resolution_preference ⟨true, true, true, false⟩
      [("T/storm_gen_article.txt", "D"), ("T/polished_article.txt", "P")]
      "T/polished_article.txt" "P" "T/storm_gen_article.txt" "D"
      (by decide) (by decide) (by decide) (by decide)).2 rfl⟩

/-- C5: when the worker reports success but no stored path carries the
polished or the draft marker, resolution raises and `run` propagates a
wrapped error — it never returns a string result, empty or otherwise. -/
theorem resolution_failure_errors (config : PipelineConfig) (store : Store) (tb : String)
    (h : ∀ f ∈ storeKeys store, containsSub f "polished_article.txt" = false ∧
      containsSub f "storm_gen_article.txt" = false) :
    (∃ msg, get_article_from_memory config store = Except.error msg) ∧
    (∀ s, StormService.run config (Except.ok store) tb ≠ Except.ok s) := by
  have hall : list_files_in_memory store "" = storeKeys store := list_files_empty_dir store
  have hp : (storeKeys store).filter (fun f => containsSub f "polished_article.txt") = [] :=
    List.filter_eq_nil_iff.mpr (fun a ha => by rw [(h a ha).1]; exact Bool.false_ne_true)
  have hd : (storeKeys store).filter (fun f => containsSub f "storm_gen_article.txt") = [] :=
    List.filter_eq_nil_iff.mpr (fun a ha => by rw [(h a ha).2]; exact Bool.false_ne_true)
  have herr : ∃ msg, get_article_from_memory config store = Except.error msg := by
    by_cases he : (storeKeys store).isEmpty = true
    · refine ⟨"No files were generated in memory storage", ?_⟩
      simp only [get_article_from_memory, hall, he]
      rfl
    · refine ⟨"No article file found in memory. Available files: " ++
        String.intercalate ", " (storeKeys store), ?_⟩
      simp only [get_article_from_memory, hall, hp, hd]
      simp [he]
  refine ⟨herr, ?_⟩
  intro s hs
  obtain ⟨msg, hmsg⟩ := herr
  unfold StormService.run at hs
  simp [hmsg] at hs

/-- Witness for C5 at a concrete store whose only entry is an outline. -/
theorem resolution_failure_errors_witness :
    (∃ msg, get_article_from_memory ⟨true, true, true, true⟩
      [("T/outline.txt", "O")] = Except.error msg) ∧
    (∀ s, StormService.run ⟨true, true, true, true⟩
      (Except.ok [("T/outline.txt", "O")]) "tb" ≠ Except.ok s) :=
  resolution_failure_errors ⟨true, true, true, true⟩ [("T/outline.txt", "O")] "tb" (by decide)

/-- A leading segment of a list remains one after appending on the right. -/
theorem strListStarts_append (pat l l' : List Char)
    (h : strListStarts pat l = true) : strListStarts pat (l ++ l') = true := by
  induction pat generalizing l with
  | nil => rfl
  | cons p ps ih =>
      cases l with
      | nil => exact absurd h (by simp [strListStarts])
      | cons c cs =>
          simp only [strListStarts, Bool.and_eq_true] at h
          simp only [List.cons_append, strListStarts, Bool.and_eq_true]
          exact ⟨h.1, ih cs h.2⟩

/-- Python `startswith` is stable under appending to the scanned string. -/
theorem strStarts_append_of (pat s t : String) (h : strStarts pat s = true) :
    strStarts pat (s ++ t) = true := by
  unfold strStarts at h ⊢
  rw [String.data_append]
  exact strListStarts_append _ _ _ h

/-- C3: on a successful streaming execution the yielded sequence is the
progress part — start line, forwarded messages in order, stage lines,
article header — followed by exactly one final chunk, the complete article,
and the generator raises nothing; on a worker failure every forwarded
message is preserved in order and the sequence ends with non-empty
error-marked lines and a raised exception, retracting nothing. -/
theorem streaming_shape (topic : String) (config : PipelineConfig)
    (messages : List String) (article : String) (e : PyError) (tb : String) :
    ((StormService.run_with_streaming topic config messages (Except.ok article) tb).1 =
        StormService.stream_progress_part topic config messages ++ [article] ∧
      (StormService.run_with_streaming topic config messages (Except.ok article) tb).2 =
        none) ∧
    (∃ errTail,
      (StormService.run_with_streaming topic config messages (Except.error e) tb).1 =
        ("🔍 Starting research on: " ++ topic ++ "\n\n") ::
          messages.map (fun m => m ++ "\n") ++ errTail ∧
      errTail ≠ [] ∧
      (∀ c ∈ errTail, strStarts "❌" c = true) ∧
      ∃ pe, (StormService.run_with_streaming topic config messages (Except.error e) tb).2 =
        some pe) := by
  constructor
  · constructor
    · simp [StormService.run_with_streaming, StormService.stream_progress_part]
    · simp [StormService.run_with_streaming]
  · by_cases h : isRateLimit e = true
    · refine ⟨["❌ Search rate limit exceeded. Try again in a few moments.\n",
        "❌ Pipeline execution failed: Search rate limit exceeded. Try again in a few moments.\n"],
        ?_, by simp, ?_, ?_⟩
      · simp [StormService.run_with_streaming, h]
      · intro c hc
        simp only [List.mem_cons, List.not_mem_nil, or_false] at hc
        rcases hc with hc | hc
        · rw [hc]; decide
        · rw [hc]; decide
      · refine ⟨format_error tb "Pipeline execution failed"
          "Search rate limit exceeded. Try again in a few moments.", ?_⟩
        simp [StormService.run_with_streaming, h]
    · refine ⟨["❌ Pipeline execution failed: " ++ e.message ++ "\n",
        "❌ Pipeline execution failed: " ++
          (format_error tb "Pipeline execution failed" e.message).message ++ "\n"],
        ?_, by simp, ?_, ?_⟩
      · simp [StormService.run_with_streaming, h]
      · intro c hc
        simp only [List.mem_cons, List.not_mem_nil, or_false] at hc
        rcases hc with hc | hc
        · rw [hc]
          exact strStarts_append_of _ _ _
            (strStarts_append_of _ _ _ (by decide))
        · rw [hc]
          exact strStarts_append_of _ _ _
            (strStarts_append_of _ _ _ (by decide))
      · refine ⟨format_error tb "Pipeline execution failed"
          (format_error tb "Pipeline execution failed" e.message).message, ?_⟩
        simp [StormService.run_with_streaming, h]

/-- Witness for C3 at a concrete stream with two progress messages, one
successful and one failing execution. -/
theorem streaming_shape_witness :
    ((StormService.run_with_streaming "T" ⟨true, true, true, true⟩ ["m1", "m2"]
        (Except.ok "ART") "tb").1 =
      StormService.stream_progress_part "T" ⟨true, true, true, true⟩ ["m1", "m2"] ++
        ["ART"]) ∧
    (∃ errTail,
      (StormService.run_with_streaming "T" ⟨true, true, true, true⟩ ["m1", "m2"]
          (Except.error ⟨"ValueError", "boom"⟩) "tb").1 =
        ("🔍 Starting research on: T\n\n") ::
          (["m1", "m2"].map (fun m => m ++ "\n")) ++ errTail ∧
      errTail ≠ [] ∧
      (∀ c ∈ errTail, strStarts "❌" c = true) ∧
      ∃ pe, (StormService.run_with_streaming "T" ⟨true, true, true, true⟩ ["m1", "m2"]
          (Except.error ⟨"ValueError", "boom"⟩) "tb").2 = some pe) :=
  ⟨(streaming_shape "T" ⟨true, true, true, true⟩ ["m1", "m2"] "ART"
      ⟨"ValueError", "boom"⟩ "tb").1.1,
   (streaming_shape "T" ⟨true, true, true, true⟩ ["m1", "m2"] "ART"
      ⟨"ValueError", "boom"⟩ "tb").2⟩

/-- C4, evaluated at a rate-limit worker failure and a generic worker
failure.  Non-streaming `run` does surface the distinct try-again outcome
and wraps other failures generically.  But in `run_with_streaming` the
rate-limit `raise` sits inside the generator's own `try`, so the generic
`except Exception` arm catches it again: the stream yields the distinct
rate-limit line *and then* a generic pipeline-failure line, and the
exception that escapes is the generic wrapper — whose message contains the
generic "Pipeline execution failed" marker — not the distinct rate-limit
error the claim requires. -/
theorem rate_limit_classification_eval :
    StormService.run ⟨true, true, true, true⟩
        (Except.error ⟨"RatelimitException", "429 from retrieval"⟩) "tb" =
      Except.error ⟨"Exception",
        "Search rate limit exceeded. Try again in a few moments."⟩ ∧
    StormService.run ⟨true, true, true, true⟩
        (Except.error ⟨"ValueError", "boom"⟩) "tb" =
      Except.error (format_error "tb" "Pipeline execution failed" "boom") ∧
    (StormService.run_with_streaming "T" ⟨true, true, true, true⟩ []
        (Except.error ⟨"RatelimitException", "429 from retrieval"⟩) "tb").1 =
      ["🔍 Starting research on: T\n\n",
       "❌ Search rate limit exceeded. Try again in a few moments.\n",
       "❌ Pipeline execution failed: Search rate limit exceeded. Try again in a few moments.\n"] ∧
    (StormService.run_with_streaming "T" ⟨true, true, true, true⟩ []
        (Except.error ⟨"RatelimitException", "429 from retrieval"⟩) "tb").2 =
      some (format_error "tb" "Pipeline execution failed"
        "Search rate limit exceeded. Try again in a few moments.") ∧
    containsSub (format_error "tb" "Pipeline execution failed"
        "Search rate limit exceeded. Try again in a few moments.").message
      "Pipeline execution failed" = true := by
  exact ⟨rfl, rfl, rfl, rfl, by decide⟩

/-- C6, evaluated around one dispatch.  The read returns empty before any
binding, the bound id during the request (inherited by the threadpool
delegation of the route handler), and empty again after the unconditional
`finally` reset, also when the body raised.  But inside the pipeline worker
thread — a plain `threading.Thread`, which CPython starts with a fresh
context — the read returns the empty default, not the bound id, contrary to
the claim's "including inside delegated worker execution". -/
theorem correlation_scoping_eval :
    get_request_id none = "" ∧
    (dispatch none "a1b2c3d4-0000-0000-0000-000000000000" false).duringRequest =
      "a1b2c3d4-0000-0000-0000-000000000000" ∧
    (dispatch none "a1b2c3d4-0000-0000-0000-000000000000" false).duringThreadpoolDelegation =
      "a1b2c3d4-0000-0000-0000-000000000000" ∧
    (dispatch none "a1b2c3d4-0000-0000-0000-000000000000" false).afterDispatch = "" ∧
    (dispatch none "a1b2c3d4-0000-0000-0000-000000000000" true).afterDispatch = "" ∧
    (dispatch none "a1b2c3d4-0000-0000-0000-000000000000" true).duringPipelineWorkerThread =
      "" := by
  exact ⟨rfl, rfl, rfl, rfl, rfl, rfl⟩

/-- The validator succeeds exactly when the stripped topic is non-empty and
contains no forbidden pattern case-insensitively. -/
theorem validate_topic_isOk_iff (raw : String) :
    (validate_topic raw).isOk = true ↔
      (pyStrip raw ≠ "" ∧ ∀ pat ∈ forbidden_patterns,
        containsSub (pyLower (pyStrip raw)) (pyLower pat) = false) := by
  by_cases h : pyStrip raw = ""
  · have heq : validate_topic raw = Except.error "Topic cannot be empty or whitespace" := by
      simp only [validate_topic]
      rw [if_pos h]
    rw [heq]
    simp [h, Except.isOk, Except.toBool]
  · cases hf : forbidden_patterns.find?
        (fun pat => containsSub (pyLower (pyStrip raw)) (pyLower pat)) with
    | some pat =>
        have heq : validate_topic raw =
            Except.error ("Topic contains forbidden pattern: " ++ pat) := by
          simp only [validate_topic]
          rw [if_neg h, hf]
        rw [heq]
        constructor
        · intro hok
          exact absurd hok (by simp [Except.isOk, Except.toBool])
        · rintro ⟨-, hall⟩
          have h1 := List.find?_some hf
          change containsSub (pyLower (pyStrip raw)) (pyLower pat) = true at h1
          rw [hall pat (List.mem_of_find?_eq_some hf)] at h1
          exact absurd h1 (by simp)
    | none =>
        have heq : validate_topic raw = Except.ok (pyStrip raw) := by
          simp only [validate_topic]
          rw [if_neg h, hf]
        rw [heq]
        constructor
        · intro _
          refine ⟨h, fun pat hpat => ?_⟩
          have h3 := List.find?_eq_none.mp hf pat hpat
          simpa using h3
        · intro _
          rfl

/-- C10: the public request model accepts a topic exactly when the raw
topic has length between 3 and 200 (the pydantic field constraints, applied
before the validator), the stripped topic is non-empty, and the stripped
topic contains none of the forbidden substrings case-insensitively; any
other topic is rejected by validation before the pipeline runs. -/
theorem topic_validation_iff (raw : String) :
    storm_request_accepts raw = true ↔
      (3 ≤ raw.length ∧ raw.length ≤ 200 ∧ pyStrip raw ≠ "" ∧
        ∀ pat ∈ forbidden_patterns,
          containsSub (pyLower (pyStrip raw)) (pyLower pat) = false) := by
  unfold storm_request_accepts
  rw [Bool.and_eq_true, Bool.and_eq_true]
  rw [decide_eq_true_iff, decide_eq_true_iff, validate_topic_isOk_iff]
  constructor
  · rintro ⟨⟨h1, h2⟩, h3, h4⟩
    exact ⟨h1, h2, h3, h4⟩
  · rintro ⟨h1, h2, h3, h4⟩
    exact ⟨⟨h1, h2⟩, h3, h4⟩

/-- Witness for C10: a well-formed topic is accepted, which discharges the
acceptance characterization at a concrete input. -/
theorem topic_validation_iff_witness :
    storm_request_accepts "Quantum computing" = true :=
  (topic_validation_iff "Quantum computing").mpr (by decide)
